import Mathlib

/-!
Shallow embedding of the label-remapping core of `robotics-data-utils`:

* `src/datasets/remap_grayscale_labels.py` — YAML-driven class consolidation
  (`remap_labels`, `process_images`, the mapping construction in `main`);
* `src/datasets/remap_rellis3d_labels.py` — the fixed-layout variant with the
  same `remap_labels` body and mapping construction;
* `src/datasets/rgb_to_grayscale_labels.py` — colormap loading
  (`load_colormap`), RGB→grayscale conversion (`process_image`) and the
  recursive traversal (`process_directory`).

Machine integers are modelled as `Nat`/`Int`; storage into the `np.uint8`
output buffers is modelled by an explicit reduction modulo 256.  Python dicts
are modelled as insertion-ordered association lists, with `insertKV` giving
dict-assignment semantics (update in place, append when absent).  File paths
are lists of components; a Python uncaught exception is an `Except.error`.
-/

/-- Python dict assignment `d[k] = v`: if the key is present its value is
updated in place (position preserved), otherwise the pair is appended. -/
def insertKV {K V : Type} [DecidableEq K] : List (K × V) → K → V → List (K × V)
  | [], k, v => [(k, v)]
  | (k', v') :: rest, k, v =>
    if k' = k then (k, v) :: rest else (k', v') :: insertKV rest k v

/-- Python dict lookup `d[k]` / `k in d` on the association-list model: the
value of the entry carrying the key, scanning from the front. -/
def lookupKV {K V : Type} [DecidableEq K] : List (K × V) → K → Option V
  | [], _ => none
  | (k', v') :: rest, k => if k' = k then some v' else lookupKV rest k

/-- A grayscale label image: a grid of non-negative pixel values
(`np.ndarray` of unsigned integers, one channel). -/
abbrev GImage := List (List Nat)

/-- The old-ID → new-ID consolidation table built in `main` of
`remap_grayscale_labels.py` (a Python dict, insertion-ordered).  Keys are the
YAML integers (arbitrary `Int`), values the 0-based new class IDs. -/
abbrev GMap := List (Int × Nat)

/-- One pixel of a `cv2.imread(..., IMREAD_COLOR)` image, in the channel
order cv2 stores it: `(B, G, R)`. -/
abbrev RGBPixel := Nat × Nat × Nat

/-- A three-channel annotation image as loaded by cv2 (BGR channel order). -/
abbrev RGBImage := List (List RGBPixel)

/-- The colormap built by `load_colormap`: an insertion-ordered dict from the
`(R, G, B)` triple (tokens 3–5 of a line, parsed by Python `int`) to the class
ID (token 1). -/
abbrev Colormap := List ((Int × Int × Int) × Int)

/-- `np.zeros_like(image, dtype=np.uint8)`: a zero grid with the shape of the
input. -/
def zerosLike (img : GImage) : GImage :=
  img.map fun row => row.map fun _ => 0

/-- One masked assignment `remapped_image[image == original_class] = new_class`
of `remap_labels`: every position of `out` whose pixel in `img` equals the key
`k` receives `v`; all other positions keep their current value.  The mask is
computed against `img`, never against `out`. -/
def assignMaskedG (img out : GImage) (k : Int) (v : Nat) : GImage :=
  List.zipWith
    (fun irow orow =>
      List.zipWith (fun (ip op : Nat) => if (ip : Int) = k then v else op) irow orow)
    img out

/-- `remap_labels(image, mapping)` of `remap_grayscale_labels.py` (lines
35–48; identically `remap_rellis3d_labels.py` lines 32–37): start from
`np.zeros_like(image, dtype=np.uint8)` and, for each `(original_class,
new_class)` of the dict in insertion order, assign `new_class` to the pixels
equal to `original_class`.  Storing into the uint8 buffer reduces the value
modulo 256. -/
def remapLabels (img : GImage) (mapping : GMap) : GImage :=
  mapping.foldl (fun out kv => assignMaskedG img out kv.1 (kv.2 % 256)) (zerosLike img)

/-- The per-pixel value that the masked-assignment loop of `remap_labels`
produces: the value of the last mapping entry whose key equals the pixel
(reduced mod 256 by the uint8 store), or 0 when no entry matches.  Looking the
pixel up in the reversed entry list picks exactly the last matching entry. -/
def lookupValG (m : GMap) (x : Nat) : Nat :=
  match lookupKV m.reverse (x : Int) with
  | some v => v % 256
  | none => 0

/-- The `(R, G, B)` triple of a BGR-stored cv2 pixel, as compared against a
colormap key by the mask of `process_image`:
`(rgb_image[:,:,0] == rgb[2]) & (rgb_image[:,:,1] == rgb[1]) &
(rgb_image[:,:,2] == rgb[0])` holds iff this triple equals the key. -/
def keyOfPx (px : RGBPixel) : Int × Int × Int :=
  ((px.2.2 : Int), (px.2.1 : Int), (px.1 : Int))

/-- `np.zeros((height, width), dtype=np.uint8)`. -/
def zerosHW (h w : Nat) : GImage :=
  List.replicate h (List.replicate w 0)

/-- One masked assignment `grayscale_image[mask] = class_id` of
`process_image`, with
`mask = (img[:,:,0] == rgb[2]) & (img[:,:,1] == rgb[1]) & (img[:,:,2] == rgb[0])`:
positions whose BGR pixel carries the key's `(R, G, B)` triple receive `v`. -/
def assignMaskedRGB (img : RGBImage) (out : GImage) (key : Int × Int × Int) (v : Nat) : GImage :=
  List.zipWith
    (fun irow orow =>
      List.zipWith (fun px op => if keyOfPx px = key then v else op) irow orow)
    img out

/-- `process_image` of `rgb_to_grayscale_labels.py` (lines 52–72): read the
image (BGR), allocate `np.zeros((height, width), dtype=np.uint8)`, and for
each `(rgb, class_id)` of the colormap dict in insertion order assign
`class_id` to the pixels matching the triple; the uint8 store reduces the
class ID modulo 256 (`Int.emod`, so a negative ID also lands in 0–255). -/
def processImage (img : RGBImage) (cm : Colormap) : GImage :=
  cm.foldl
    (fun out kv => assignMaskedRGB img out kv.1 ((kv.2 % 256).toNat))
    (zerosHW img.length ((img.getD 0 []).length))

/-- The per-pixel value produced by `process_image`: the class ID of the last
colormap entry whose `(R, G, B)` key matches the pixel, reduced mod 256 by the
uint8 store, or 0 when no entry matches. -/
def lookupValRGB (cm : Colormap) (px : RGBPixel) : Nat :=
  match lookupKV cm.reverse (keyOfPx px) with
  | some v => (v % 256).toNat
  | none => 0

/-- Pixel access in a grayscale grid (0 outside the grid). -/
def pixG (img : GImage) (i j : Nat) : Nat :=
  (img.getD i []).getD j 0

/-- Pixel access in a BGR grid (`(0,0,0)` outside the grid). -/
def pixRGB (img : RGBImage) (i j : Nat) : RGBPixel :=
  (img.getD i []).getD j (0, 0, 0)

/-- A grid all of whose rows have the width of its first row, as every
`np.ndarray` image is rectangular. -/
abbrev Rectangular {α : Type} (img : List (List α)) : Prop :=
  ∀ row ∈ img, row.length = (img.getD 0 []).length

/-- The numeric value of a decimal digit character. -/
def digitVal (c : Char) : Option Nat :=
  if '0' ≤ c ∧ c ≤ '9' then some (c.toNat - '0'.toNat) else none

/-- Decimal digits to a number, accumulator style; fails at the first
non-digit. -/
def digitsNatAux : Nat → List Char → Option Nat
  | acc, [] => some acc
  | acc, c :: rest =>
    match digitVal c with
    | some d => digitsNatAux (10 * acc + d) rest
    | none => none

/-- A non-empty all-digit character list to its value. -/
def digitsNat : List Char → Option Nat
  | [] => none
  | cs => digitsNatAux 0 cs

/-- Python `int(token)` on a token coming from `str.split()` (so free of
whitespace): an optional sign followed by at least one decimal digit;
anything else makes `int` raise `ValueError`, modelled as `none`. -/
def pyInt (s : String) : Option Int :=
  match s.toList with
  | '-' :: rest => (digitsNat rest).map fun n => -(n : Int)
  | '+' :: rest => (digitsNat rest).map fun n => (n : Int)
  | cs => (digitsNat cs).map fun n => (n : Int)

/-- Python `file.endswith(".png")`. -/
def endsWithPng (s : String) : Bool :=
  match s.toList.reverse with
  | 'g' :: 'n' :: 'p' :: '.' :: _ => true
  | _ => false

/-- ASCII lowering of one character, as `str.lower()` acts on file-name
characters. -/
def toLowerChar (c : Char) : Char :=
  if 'A' ≤ c ∧ c ≤ 'Z' then Char.ofNat (c.toNat + 32) else c

/-- Python `file.lower().endswith(".png")`. -/
def lowerEndsWithPng (s : String) : Bool :=
  match (s.toList.map toLowerChar).reverse with
  | 'g' :: 'n' :: 'p' :: '.' :: _ => true
  | _ => false

/-- The loop body of `load_colormap` (lines 40–49 of
`rgb_to_grayscale_labels.py`) over the whitespace-split token lists of the
file's lines, threading the dict: a line whose token count is not 5 is
skipped; otherwise `int(parts[0])` and `tuple(map(int, parts[2:]))` are
parsed — a token that is not an integer literal makes Python `int` raise
`ValueError`, which is uncaught — and `colormap[rgb] = class_id` is the dict
assignment. -/
def loadColormapAux (cm : Colormap) : List (List String) → Except String Colormap
  | [] => .ok cm
  | parts :: rest =>
    if parts.length = 5 then
      match pyInt (parts.getD 0 ""), pyInt (parts.getD 2 ""),
            pyInt (parts.getD 3 ""), pyInt (parts.getD 4 "") with
      | some cid, some r, some g, some b =>
        loadColormapAux (insertKV cm (r, g, b) cid) rest
      | _, _, _, _ => .error "ValueError: invalid literal for int"
    else
      loadColormapAux cm rest

/-- `load_colormap` of `rgb_to_grayscale_labels.py` (lines 30–49), the file
given as the list of whitespace-split token lists of its lines (Python
`line.strip().split()` produces no empty tokens). -/
def loadColormap (lines : List (List String)) : Except String Colormap :=
  loadColormapAux [] lines

/-- The name→IDs loop of `main` in `remap_grayscale_labels.py` (lines 92–97;
identically `remap_rellis3d_labels.py` lines 79–84), threading the dict `m`
and the counter `n` (`new_class_id`): for each `(new_class, old_classes)`
entry, every old class is assigned the current counter, then the counter is
incremented. -/
def buildMappingAux : List (String × List Int) → GMap → Nat → GMap
  | [], m, _ => m
  | e :: rest, m, n =>
    buildMappingAux rest (e.2.foldl (fun acc c => insertKV acc c n) m) (n + 1)

/-- The consolidation table built by `main` from the parsed YAML entry
sequence, starting from the empty dict and counter 0. -/
def buildMapping (entries : List (String × List Int)) : GMap :=
  buildMappingAux entries [] 0

/-- The index of the last entry of the sequence whose old-ID list contains
`x`, if any. -/
def lastEntryIdx : List (String × List Int) → Int → Option Nat
  | [], _ => none
  | e :: rest, x =>
    match lastEntryIdx rest x with
    | some j => some (j + 1)
    | none => if x ∈ e.2 then some 0 else none

/-- The per-file loop of `process_images` (`remap_grayscale_labels.py` lines
67–83) and `process_directory` (`rgb_to_grayscale_labels.py` lines 96–103)
over the discovered files in traversal order.  Each file carries its decode
result: `none` models a missing, unreadable or undecodable source
(`PIL.Image.open` raises; `cv2.imread` returns `None` and the subsequent
`.shape` access raises `AttributeError`).  Neither loop has a handler, so the
exception aborts the run: the result pairs the outputs written before the
failure with a flag saying whether the batch was aborted. -/
def runBatch (mapping : GMap) : List (List String × Option GImage) → List (List String × GImage) × Bool
  | [] => ([], false)
  | (_, none) :: _ => ([], true)
  | (p, some img) :: rest =>
    let r := runBatch mapping rest
    ((p, remapLabels img mapping) :: r.1, r.2)

/-- `os.path.relpath(p, base)` in the only form the scripts use it: `base` is
a path prefix of `p`, and the relative path is what remains after it. -/
def relpathM (p base : List String) : List String :=
  p.drop base.length

/-- A directory tree: the files directly inside, and the named
subdirectories. -/
inductive DirTree : Type where
  | node (files : List String) (subdirs : List (String × DirTree)) : DirTree

/-- `os.walk(root)` rooted at this tree: for each directory, its path
relative to the walk root together with the files it holds, top-down. -/
def walkFrom : DirTree → List (List String × List String)
  | .node files subdirs =>
    ([], files) ::
      subdirs.attach.flatMap fun s =>
        (walkFrom s.1.2).map fun pf => (s.1.1 :: pf.1, pf.2)
decreasing_by
  obtain ⟨⟨name, sub⟩, hmem⟩ := s
  have h := List.sizeOf_lt_of_mem hmem
  simp at h ⊢
  omega

/-- The immediate subdirectory of a tree with a given name, when it exists
(`os.path.exists(os.path.join(input_dir, subdir))`). -/
def lookupSubdir : DirTree → String → Option DirTree
  | .node _ subdirs, name => lookupKV subdirs name

/-- The (input path, output path) pairs produced by `process_images` of
`remap_grayscale_labels.py` (lines 51–83): for each requested subdirectory
that exists, walk it; for each walked directory `root` and each file ending
(case-insensitively) in `.png`, the input is `os.path.join(root, file)`, and
the output is `os.path.join(output_dir, os.path.relpath(root, input_dir),
file)`. -/
def plannedG (inRoot : List String) (subdirNames : List String)
    (outRoot : List String) (t : DirTree) : List (List String × List String) :=
  subdirNames.flatMap fun sd =>
    match lookupSubdir t sd with
    | none => []
    | some sub =>
      (walkFrom sub).flatMap fun rf =>
        (rf.2.filter fun f => lowerEndsWithPng f).map fun f =>
          let root := (inRoot ++ [sd]) ++ rf.1
          (root ++ [f], outRoot ++ relpathM root inRoot ++ [f])

/-- The (input path, output path) pairs produced by `process_directory` of
`rgb_to_grayscale_labels.py` (lines 75–103): walk the input root, keep the
files ending in `.png`; each input is `os.path.join(root, file)`, and its
output is `os.path.join(output_dir, os.path.relpath(input_path,
input_dir))`. -/
def plannedRGB (inRoot outRoot : List String) (t : DirTree) : List (List String × List String) :=
  (walkFrom t).flatMap fun rf =>
    (rf.2.filter fun f => endsWithPng f).map fun f =>
      let ip := (inRoot ++ rf.1) ++ [f]
      (ip, outRoot ++ relpathM ip inRoot)
section Helpers

variable {K V : Type} [DecidableEq K]

theorem lookupKV_insert_self (m : List (K × V)) (k : K) (v : V) :
    lookupKV (insertKV m k v) k = some v := by
  induction m with
  | nil => simp [insertKV, lookupKV]
  | cons p rest ih =>
    obtain ⟨k', v'⟩ := p
    by_cases h : k' = k
    · simp [insertKV, h, lookupKV]
    · simp [insertKV, h, lookupKV, ih]

theorem lookupKV_insert_ne (m : List (K × V)) (k x : K) (v : V) (hx : x ≠ k) :
    lookupKV (insertKV m k v) x = lookupKV m x := by
  have hkx : k ≠ x := Ne.symm hx
  induction m with
  | nil => simp [insertKV, lookupKV, hkx]
  | cons p rest ih =>
    obtain ⟨k', v'⟩ := p
    by_cases h : k' = k
    · simp [insertKV, h, lookupKV, hkx]
    · simp [insertKV, h, lookupKV, ih]

theorem keys_insertKV (m : List (K × V)) (k : K) (v : V) :
    ∀ a ∈ (insertKV m k v).map Prod.fst, a ∈ m.map Prod.fst ∨ a = k := by
  induction m with
  | nil => simp [insertKV]
  | cons p rest ih =>
    obtain ⟨k', v'⟩ := p
    by_cases h : k' = k
    · intro a ha
      simp only [insertKV, if_pos h, List.map_cons, List.mem_cons] at ha
      rcases ha with ha | ha
      · right; exact ha
      · left; simp [ha]
    · intro a ha
      simp only [insertKV, if_neg h, List.map_cons, List.mem_cons] at ha
      rcases ha with ha | ha
      · left; simp [ha]
      · rcases ih a ha with h1 | h1
        · left; simp [h1]
        · right; exact h1

theorem nodupKeys_insertKV (m : List (K × V)) (k : K) (v : V)
    (h : (m.map Prod.fst).Nodup) : ((insertKV m k v).map Prod.fst).Nodup := by
  induction m with
  | nil => simp [insertKV]
  | cons p rest ih =>
    obtain ⟨k', v'⟩ := p
    simp only [List.map_cons, List.nodup_cons] at h
    by_cases hk : k' = k
    · simp only [insertKV, if_pos hk, List.map_cons, List.nodup_cons]
      exact ⟨by rw [← hk]; exact h.1, h.2⟩
    · simp only [insertKV, if_neg hk, List.map_cons, List.nodup_cons]
      refine ⟨fun hmem => ?_, ih h.2⟩
      rcases keys_insertKV rest k v k' hmem with h1 | h1
      · exact h.1 h1
      · exact hk h1

theorem lookupKV_of_perm {l₁ l₂ : List (K × V)} (h : l₁.Perm l₂) :
    (l₁.map Prod.fst).Nodup → ∀ x, lookupKV l₁ x = lookupKV l₂ x := by
  induction h with
  | nil => intro _ _; rfl
  | cons a h ih =>
    intro nd x
    obtain ⟨k, v⟩ := a
    simp only [List.map_cons, List.nodup_cons] at nd
    by_cases hx : k = x <;> simp [lookupKV, hx, ih nd.2 x]
  | swap a b l =>
    intro nd z
    obtain ⟨ka, va⟩ := a
    obtain ⟨kb, vb⟩ := b
    simp only [List.map_cons, List.nodup_cons, List.mem_cons] at nd
    have hne : kb ≠ ka := fun hh => nd.1 (Or.inl hh)
    by_cases hzb : kb = z
    · subst hzb
      simp [lookupKV, hne, Ne.symm hne]
    · by_cases hza : ka = z <;> simp [lookupKV, hza, hzb]
  | trans h₁ h₂ ih₁ ih₂ =>
    intro nd x
    rw [ih₁ nd x]
    exact ih₂ (((h₁.map Prod.fst).nodup_iff).mp nd) x

theorem lookupKV_reverse_of_nodup (l : List (K × V))
    (nd : (l.map Prod.fst).Nodup) (x : K) :
    lookupKV l.reverse x = lookupKV l x := by
  refine lookupKV_of_perm (List.reverse_perm l) ?_ x
  rw [List.map_reverse, List.nodup_reverse]
  exact nd

theorem lookupKV_eq_none_of_keys (l : List (K × V)) (x : K)
    (h : ∀ p ∈ l, p.1 ≠ x) : lookupKV l x = none := by
  induction l with
  | nil => rfl
  | cons p rest ih =>
    obtain ⟨k, v⟩ := p
    have h1 : k ≠ x := h (k, v) (List.mem_cons_self _ _)
    simp only [lookupKV, if_neg h1]
    exact ih (fun q hq => h q (List.mem_cons_of_mem _ hq))

theorem keys_of_lookupKV_none (l : List (K × V)) (x : K)
    (h : lookupKV l x = none) : ∀ p ∈ l, p.1 ≠ x := by
  induction l with
  | nil => simp
  | cons p rest ih =>
    obtain ⟨k, v⟩ := p
    by_cases hx : k = x
    · simp [lookupKV, hx] at h
    · intro q hq
      rcases List.mem_cons.mp hq with rfl | hq
      · exact hx
      · exact ih (by simpa [lookupKV, hx] using h) q hq

theorem lookupKV_reverse_none (l : List (K × V)) (x : K)
    (h : lookupKV l x = none) : lookupKV l.reverse x = none := by
  refine lookupKV_eq_none_of_keys _ _ (fun p hp => ?_)
  exact keys_of_lookupKV_none l x h p (List.mem_reverse.mp hp)

theorem zipWith_map_self {α β γ : Type} (g : α → β → γ) (f : α → β) (l : List α) :
    List.zipWith g l (l.map f) = l.map fun a => g a (f a) := by
  induction l with
  | nil => rfl
  | cons a t ih => simp [ih]

end Helpers

section ClosedForms

theorem assignMaskedG_map (img : GImage) (f : Nat → Nat) (k : Int) (v : Nat) :
    assignMaskedG img (img.map fun row => row.map fun x => f x) k v =
      img.map fun row => row.map fun (x : Nat) => if (x : Int) = k then v else f x := by
  unfold assignMaskedG
  rw [zipWith_map_self]
  simp only [zipWith_map_self]

theorem lookupValG_concat (m : GMap) (kv : Int × Nat) (x : Nat) :
    lookupValG (m ++ [kv]) x =
      if (x : Int) = kv.1 then kv.2 % 256 else lookupValG m x := by
  obtain ⟨k, v⟩ := kv
  by_cases h : (x : Int) = k
  · simp [lookupValG, lookupKV, h]
  · simp [lookupValG, lookupKV, h, Ne.symm h]

theorem remapLabels_closed (img : GImage) (m : GMap) :
    remapLabels img m = img.map fun row => row.map fun x => lookupValG m x := by
  induction m using List.reverseRecOn with
  | nil => simp [remapLabels, zerosLike, lookupValG, lookupKV]
  | append_singleton m kv ih =>
    have h1 : remapLabels img (m ++ [kv]) =
        assignMaskedG img (remapLabels img m) kv.1 (kv.2 % 256) := by
      simp [remapLabels, List.foldl_append]
    rw [h1, ih, assignMaskedG_map]
    simp only [lookupValG_concat]

theorem assignMaskedRGB_map (img : RGBImage) (f : RGBPixel → Nat)
    (key : Int × Int × Int) (v : Nat) :
    assignMaskedRGB img (img.map fun row => row.map fun px => f px) key v =
      img.map fun row => row.map fun px => if keyOfPx px = key then v else f px := by
  unfold assignMaskedRGB
  rw [zipWith_map_self]
  simp only [zipWith_map_self]

theorem lookupValRGB_concat (cm : Colormap) (kv : (Int × Int × Int) × Int) (px : RGBPixel) :
    lookupValRGB (cm ++ [kv]) px =
      if keyOfPx px = kv.1 then (kv.2 % 256).toNat else lookupValRGB cm px := by
  obtain ⟨k, v⟩ := kv
  by_cases h : keyOfPx px = k
  · simp [lookupValRGB, lookupKV, h]
  · simp [lookupValRGB, lookupKV, h, Ne.symm h]

theorem zerosHW_of_rect (img : RGBImage) (w : Nat)
    (hrect : ∀ row ∈ img, row.length = w) :
    zerosHW img.length w = img.map fun row => row.map fun _ => 0 := by
  induction img with
  | nil => rfl
  | cons r t ih =>
    have hr : r.length = w := hrect r (List.mem_cons_self _ _)
    simp only [List.length_cons, zerosHW, List.replicate_succ, List.map_cons]
    refine congrArg₂ List.cons ?_ ?_
    · simp [List.map_const', hr]
    · have := ih (fun row hrow => hrect row (List.mem_cons_of_mem _ hrow))
      simpa [zerosHW] using this

theorem processImage_closed (img : RGBImage) (cm : Colormap)
    (hrect : Rectangular img) :
    processImage img cm = img.map fun row => row.map fun px => lookupValRGB cm px := by
  induction cm using List.reverseRecOn with
  | nil =>
    simp only [processImage, List.foldl_nil]
    rw [zerosHW_of_rect img _ hrect]
    simp [lookupValRGB, lookupKV]
  | append_singleton cm kv ih =>
    have h1 : processImage img (cm ++ [kv]) =
        assignMaskedRGB img (processImage img cm) kv.1 ((kv.2 % 256).toNat) := by
      simp [processImage, List.foldl_append]
    rw [h1, ih, assignMaskedRGB_map]
    simp only [lookupValRGB_concat]

theorem getD_map_map {α : Type} (img : List (List α)) (f : α → Nat) (d : α)
    (i j : Nat) (hi : i < img.length) (hj : j < (img.getD i []).length) :
    ((img.map fun row => row.map fun x => f x).getD i []).getD j 0 =
      f ((img.getD i []).getD j d) := by
  have hi' : i < (img.map fun row => row.map fun x => f x).length := by simpa using hi
  rw [List.getD_eq_getElem _ _ hi', List.getD_eq_getElem _ _ hi]
  rw [List.getElem_map]
  rw [List.getD_eq_getElem _ _ hi] at hj
  have hj' : j < (img[i].map fun x => f x).length := by simpa using hj
  rw [List.getD_eq_getElem _ _ hj', List.getD_eq_getElem _ _ hj]
  rw [List.getElem_map]

theorem pixG_remapLabels (img : GImage) (m : GMap) (i j : Nat)
    (hi : i < img.length) (hj : j < (img.getD i []).length) :
    pixG (remapLabels img m) i j = lookupValG m (pixG img i j) := by
  unfold pixG
  rw [remapLabels_closed]
  exact getD_map_map img (fun x => lookupValG m x) 0 i j hi hj

theorem pixG_processImage (img : RGBImage) (cm : Colormap) (i j : Nat)
    (hrect : Rectangular img)
    (hi : i < img.length) (hj : j < (img.getD i []).length) :
    pixG (processImage img cm) i j = lookupValRGB cm (pixRGB img i j) := by
  unfold pixG pixRGB
  rw [processImage_closed img cm hrect]
  exact getD_map_map img (fun px => lookupValRGB cm px) (0, 0, 0) i j hi hj

end ClosedForms

section MappingConstruction

theorem lookupKV_foldl_insert (ids : List Int) (n : Nat) :
    ∀ (m : GMap) (x : Int),
      lookupKV (ids.foldl (fun acc c => insertKV acc c n) m) x =
        if x ∈ ids then some n else lookupKV m x := by
  induction ids with
  | nil => intro m x; simp
  | cons c rest ih =>
    intro m x
    simp only [List.foldl_cons, ih, List.mem_cons]
    by_cases hx : x = c
    · simp [hx, lookupKV_insert_self]
    · by_cases hr : x ∈ rest <;> simp [hx, hr, lookupKV_insert_ne _ _ _ _ hx]

theorem lookupKV_buildMappingAux (entries : List (String × List Int)) :
    ∀ (m : GMap) (n : Nat) (x : Int),
      lookupKV (buildMappingAux entries m n) x =
        match lastEntryIdx entries x with
        | some j => some (n + j)
        | none => lookupKV m x := by
  induction entries with
  | nil => intro m n x; simp [buildMappingAux, lastEntryIdx]
  | cons e rest ih =>
    intro m n x
    simp only [buildMappingAux, lastEntryIdx, ih, lookupKV_foldl_insert]
    cases hlast : lastEntryIdx rest x with
    | some j => simp [Nat.add_assoc, Nat.add_comm 1 j]
    | none => by_cases hx : x ∈ e.2 <;> simp [hx]

theorem lookupKV_buildMapping (entries : List (String × List Int)) (x : Int) :
    lookupKV (buildMapping entries) x = lastEntryIdx entries x := by
  rw [buildMapping, lookupKV_buildMappingAux]
  cases h : lastEntryIdx entries x <;> simp [lookupKV]

end MappingConstruction

section ColormapLoading

theorem loadColormapAux_ok_nodup :
    ∀ (lines : List (List String)) (cm out : Colormap),
      (cm.map Prod.fst).Nodup → loadColormapAux cm lines = .ok out →
      (out.map Prod.fst).Nodup := by
  intro lines
  induction lines with
  | nil =>
    intro cm out hnd hok
    simp only [loadColormapAux, Except.ok.injEq] at hok
    rw [← hok]
    exact hnd
  | cons parts rest ih =>
    intro cm out hnd hok
    simp only [loadColormapAux] at hok
    by_cases h5 : parts.length = 5
    · rw [if_pos h5] at hok
      split at hok
      · exact ih _ _ (nodupKeys_insertKV _ _ _ hnd) hok
      · simp at hok
    · rw [if_neg h5] at hok
      exact ih _ _ hnd hok

theorem loadColormap_ok_nodup (lines : List (List String)) (cm : Colormap)
    (hok : loadColormap lines = .ok cm) : (cm.map Prod.fst).Nodup :=
  loadColormapAux_ok_nodup lines [] cm (by simp) hok

theorem loadColormapAux_skip (parts : List String) (h5 : parts.length ≠ 5) :
    ∀ (cm : Colormap) (l₁ l₂ : List (List String)),
      loadColormapAux cm (l₁ ++ parts :: l₂) = loadColormapAux cm (l₁ ++ l₂) := by
  intro cm l₁
  induction l₁ generalizing cm with
  | nil => intro l₂; simp [loadColormapAux, h5]
  | cons q rest ih =>
    intro l₂
    simp only [List.cons_append, loadColormapAux]
    by_cases hq : q.length = 5
    · rw [if_pos hq, if_pos hq]
      split
      · exact ih _ l₂
      · rfl
    · rw [if_neg hq, if_neg hq]
      exact ih cm l₂
end ColormapLoading

section BatchRuns

theorem runBatch_all_ok (m : GMap) :
    ∀ files : List (List String × Option GImage),
      (∀ f ∈ files, f.2.isSome) →
      (runBatch m files).2 = false ∧ (runBatch m files).1.length = files.length := by
  intro files
  induction files with
  | nil => intro _; simp [runBatch]
  | cons f rest ih =>
    intro h
    obtain ⟨p, img⟩ := f
    cases img with
    | none =>
      have := h (p, none) (List.mem_cons_self _ _)
      simp at this
    | some img =>
      have hr := ih (fun q hq => h q (List.mem_cons_of_mem _ hq))
      simp [runBatch, hr.1, hr.2]

theorem runBatch_aborts (m : GMap) (p : List String)
    (post : List (List String × Option GImage)) :
    ∀ pre : List (List String × Option GImage),
      (∀ f ∈ pre, f.2.isSome) →
      (runBatch m (pre ++ (p, none) :: post)).2 = true ∧
        (runBatch m (pre ++ (p, none) :: post)).1.length = pre.length := by
  intro pre
  induction pre with
  | nil => intro _; simp [runBatch]
  | cons f rest ih =>
    intro h
    obtain ⟨q, img⟩ := f
    cases img with
    | none =>
      have := h (q, none) (List.mem_cons_self _ _)
      simp at this
    | some img =>
      have hr := ih (fun r hr => h r (List.mem_cons_of_mem _ hr))
      simp [runBatch, hr.1, hr.2]

end BatchRuns

/-- Claim C1: for every label image and every active mapping (class-ID dict or
colormap), every pixel whose value (respectively RGB triple) has no entry in
the mapping's domain is mapped to 0 by `remap_labels` / `process_image`,
regardless of the input pixel's magnitude. -/
theorem background_default :
    (∀ (m : GMap) (img : GImage) (i j : Nat),
        i < img.length → j < (img.getD i []).length →
        lookupKV m ((pixG img i j : Nat) : Int) = none →
        pixG (remapLabels img m) i j = 0) ∧
    (∀ (cm : Colormap) (img : RGBImage) (i j : Nat),
        Rectangular img →
        i < img.length → j < (img.getD i []).length →
        lookupKV cm (keyOfPx (pixRGB img i j)) = none →
        pixG (processImage img cm) i j = 0) := by
  constructor
  · intro m img i j hi hj hnone
    rw [pixG_remapLabels img m i j hi hj]
    unfold lookupValG
    rw [lookupKV_reverse_none m _ hnone]
  · intro cm img i j hrect hi hj hnone
    rw [pixG_processImage img cm i j hrect hi hj]
    unfold lookupValRGB
    rw [lookupKV_reverse_none cm _ hnone]

/-- Witness for `background_default`: pixel value 7 under the mapping
`{5: 1}` comes out 0, and the unlisted RGB pixel (9,9,9) under the colormap
`{(0,0,255): 1}` comes out 0. -/
theorem background_default_witness :
    pixG (remapLabels [[7]] [((5 : Int), 1)]) 0 0 = 0 ∧
    pixG (processImage [[(9, 9, 9)]] [(((0 : Int), 0, 255), 1)]) 0 0 = 0 :=
  ⟨background_default.1 [((5 : Int), 1)] [[7]] 0 0 (by decide) (by decide) (by decide),
   background_default.2 [(((0 : Int), 0, 255), 1)] [[(9, 9, 9)]] 0 0
     (by decide) (by decide) (by decide) (by decide)⟩

/-- Claim C2, counterexample to the exact statement: the colormap file line
`256 big 1 2 3` loads to the entry `(1,2,3) ↦ 256`, yet the image whose only
pixel carries RGB `(1,2,3)` (stored BGR as `(3,2,1)`) converts to output pixel
`(256 % 256) = 0`, not to the mapped class ID 256: the uint8 store wraps class
IDs outside 0–255. -/
theorem colormap_lookup_counterexample :
    loadColormap [["256", "big", "1", "2", "3"]] = Except.ok [(((1 : Int), 2, 3), 256)] ∧
    processImage [[(3, 2, 1)]] [(((1 : Int), 2, 3), 256)] = [[0]] ∧
    (0 : Nat) ≠ 256 :=
  ⟨rfl, rfl, by decide⟩

/-- Claim C2 (amended): for every RGB triple present as a key in a loaded
colormap, an image pixel equal to that triple converts to the mapped class ID
reduced modulo 256 — which is the class ID itself whenever it lies in 0–255 —
and every RGB triple absent from the colormap converts to 0. -/
theorem colormap_lookup_correct (lines : List (List String)) (cm : Colormap)
    (img : RGBImage) (i j : Nat)
    (hload : loadColormap lines = Except.ok cm)
    (hrect : Rectangular img)
    (hi : i < img.length) (hj : j < (img.getD i []).length) :
    pixG (processImage img cm) i j =
      match lookupKV cm (keyOfPx (pixRGB img i j)) with
      | some v => (v % 256).toNat
      | none => 0 := by
  rw [pixG_processImage img cm i j hrect hi hj]
  unfold lookupValRGB
  rw [lookupKV_reverse_of_nodup cm (loadColormap_ok_nodup lines cm hload)]

/-- Witness for `colormap_lookup_correct`: with the loaded colormap
`{(0,0,0): 0, (0,0,255): 1}`, the image whose pixel is RGB `(0,0,255)`
(stored BGR as `(255,0,0)`) converts to class ID 1. -/
theorem colormap_lookup_correct_witness :
    pixG (processImage [[(255, 0, 0)]] [(((0 : Int), 0, 0), 0), (((0 : Int), 0, 255), 1)]) 0 0 = 1 := by
  have h := colormap_lookup_correct
    [["0", "background", "0", "0", "0"], ["1", "water", "0", "0", "255"]]
    [(((0 : Int), 0, 0), 0), (((0 : Int), 0, 255), 1)]
    [[(255, 0, 0)]] 0 0 rfl (by decide) (by decide) (by decide)
  simpa using h

/-- Claim C3: the consolidation table assigns each entry the consolidated ID
equal to its zero-based position, maps every old ID of an entry's list to
that entry's ID with later entries overwriting earlier ones — captured by:
looking an old ID up in the built table yields exactly the index of the last
entry whose list contains it — and the specification
`{water: [6, 31], obstacle: [15, 34]}` yields `{6:0, 31:0, 15:1, 34:1}`. -/
theorem class_mapping_assignment :
    (∀ (entries : List (String × List Int)) (x : Int),
        lookupKV (buildMapping entries) x = lastEntryIdx entries x) ∧
    buildMapping [("water", [6, 31]), ("obstacle", [15, 34])] =
      [((6 : Int), 0), (31, 0), (15, 1), (34, 1)] :=
  ⟨lookupKV_buildMapping, by decide⟩

/-- Claim C4, counterexample to the exact statement: the five-token line
`a name 0 0 0` has a non-integer first token, so `int(parts[0])` raises
`ValueError` — the line is not silently discarded, the load aborts. -/
theorem colormap_malformed_counterexample :
    loadColormap [["a", "name", "0", "0", "0"]] =
      Except.error "ValueError: invalid literal for int" := rfl

/-- Claim C4 (amended): a line whose whitespace-split token count is not
exactly five is skipped without error wherever it occurs; a five-token line
whose numeric tokens all parse inserts RGB-triple → class-ID, overwriting any
prior entry for the same RGB key (so the later of two lines with the same
triple wins); but a five-token line with a non-integer numeric token makes
the loader raise instead of discarding the line. -/
theorem colormap_line_handling :
    (∀ (parts : List String), parts.length ≠ 5 →
        ∀ (cm : Colormap) (l₁ l₂ : List (List String)),
          loadColormapAux cm (l₁ ++ parts :: l₂) = loadColormapAux cm (l₁ ++ l₂)) ∧
    (∀ (t0 t1 t2 t3 t4 : String) (cid r g b : Int) (cm : Colormap)
        (rest : List (List String)),
        pyInt t0 = some cid → pyInt t2 = some r → pyInt t3 = some g →
        pyInt t4 = some b →
        loadColormapAux cm ([t0, t1, t2, t3, t4] :: rest) =
          loadColormapAux (insertKV cm (r, g, b) cid) rest) ∧
    (∀ (cm : Colormap) (k : Int × Int × Int) (v : Int),
        lookupKV (insertKV cm k v) k = some v) := by
  refine ⟨fun parts h5 cm l₁ l₂ => loadColormapAux_skip parts h5 cm l₁ l₂, ?_, fun cm k v => lookupKV_insert_self cm k v⟩
  intro t0 t1 t2 t3 t4 cid r g b cm rest h0 h2 h3 h4
  simp [loadColormapAux, h0, h2, h3, h4]

/-- Witness for `colormap_line_handling`: the one-token line `junk` is
skipped; the line `1 water 0 0 255` inserts `(0,0,255) ↦ 1`; and inserting
`(0,0,255) ↦ 1` into a colormap that already maps `(0,0,255) ↦ 7` makes the
later value 1 win. -/
theorem colormap_line_handling_witness :
    loadColormapAux [] ([] ++ ["junk"] :: [["1", "water", "0", "0", "255"]]) =
      loadColormapAux [] ([] ++ [["1", "water", "0", "0", "255"]]) ∧
    loadColormapAux [] ([["1", "water", "0", "0", "255"]]) =
      loadColormapAux (insertKV [] ((0 : Int), 0, 255) 1) [] ∧
    lookupKV (insertKV ([(((0 : Int), 0, 255), 7)] : Colormap) ((0 : Int), 0, 255) 1)
      ((0 : Int), 0, 255) = some 1 :=
  ⟨colormap_line_handling.1 ["junk"] (by decide) [] [] [["1", "water", "0", "0", "255"]],
   colormap_line_handling.2.1 "1" "water" "0" "0" "255" 1 0 0 255 [] [] rfl rfl rfl rfl,
   colormap_line_handling.2.2 ([(((0 : Int), 0, 255), 7)] : Colormap) ((0 : Int), 0, 255) 1⟩

/-- Claim C5, counterexample to the exact statement: building the mapping
from the empty entry sequence raises nothing — it returns the empty dict —
and the batch then proceeds through image I/O, writing an all-background
image: no validation error ever aborts the run. -/
theorem empty_mapping_counterexample :
    buildMapping [] = ([] : GMap) ∧
    runBatch (buildMapping []) [(["lbl.png"], some [[5, 7], [9, 0]])] =
      ([(["lbl.png"], [[0, 0], [0, 0]])], false) :=
  ⟨rfl, rfl⟩

/-- Claim C5 (amended): building a ClassMapping from an empty entry sequence
does not fail: it yields the empty mapping, and remapping under the empty
mapping turns every image into its all-zero counterpart — processing
proceeds, no error is raised before (or during) image I/O. -/
theorem empty_mapping_behavior :
    buildMapping [] = ([] : GMap) ∧
    ∀ img : GImage, remapLabels img [] = zerosLike img :=
  ⟨rfl, fun _ => rfl⟩

/-- Claim C6, counterexample to the exact statement: a batch of two files
whose first fails to decode aborts immediately — the output list is empty and
the abort flag set — so the second, perfectly readable file is never
processed; the per-file error is not recovered. -/
theorem per_file_error_counterexample :
    runBatch [] [(["a.png"], none), (["b.png"], some [[1]])] = ([], true) :=
  rfl

/-- Claim C6 (amended): a missing, unreadable or undecodable source raises an
uncaught exception that aborts the batch: exactly the files before the first
failure are processed and everything from the failing file on is not; only a
batch whose every file decodes runs to completion with all files processed. -/
theorem per_file_error_aborts :
    (∀ (m : GMap) (files : List (List String × Option GImage)),
        (∀ f ∈ files, f.2.isSome) →
        (runBatch m files).2 = false ∧ (runBatch m files).1.length = files.length) ∧
    (∀ (m : GMap) (p : List String) (post pre : List (List String × Option GImage)),
        (∀ f ∈ pre, f.2.isSome) →
        (runBatch m (pre ++ (p, none) :: post)).2 = true ∧
          (runBatch m (pre ++ (p, none) :: post)).1.length = pre.length) :=
  ⟨runBatch_all_ok, fun m p post pre => runBatch_aborts m p post pre⟩

/-- Witness for `per_file_error_aborts`: a one-file decodable batch completes
with one output; a batch `ok.png, bad.png, later.png` whose middle file fails
aborts with exactly the one output written before the failure. -/
theorem per_file_error_aborts_witness :
    ((runBatch [] [(["ok.png"], some [[1]])]).2 = false ∧
      (runBatch [] [(["ok.png"], some [[1]])]).1.length = 1) ∧
    ((runBatch [] ([(["ok.png"], some [[2]])] ++ (["bad.png"], none) ::
        [(["later.png"], some [[3]])])).2 = true ∧
      (runBatch [] ([(["ok.png"], some [[2]])] ++ (["bad.png"], none) ::
        [(["later.png"], some [[3]])])).1.length = 1) :=
  ⟨per_file_error_aborts.1 [] [(["ok.png"], some [[1]])] (by decide),
   per_file_error_aborts.2 [] ["bad.png"] [(["later.png"], some [[3]])]
     [(["ok.png"], some [[2]])] (by decide)⟩

/-- Claim C7: both transforms preserve width and height — the list of row
lengths of the output equals that of the input (so in particular the height,
its length, is also equal). -/
theorem shape_preservation :
    (∀ (img : GImage) (m : GMap),
        (remapLabels img m).map List.length = img.map List.length) ∧
    (∀ (img : RGBImage) (cm : Colormap), Rectangular img →
        (processImage img cm).map List.length = img.map List.length) := by
  constructor
  · intro img m
    rw [remapLabels_closed]
    simp [List.map_map, Function.comp]
  · intro img cm hrect
    rw [processImage_closed img cm hrect]
    simp [List.map_map, Function.comp]

/-- Witness for `shape_preservation`: a 1×2 RGB image keeps its row lengths
through the colormap transform. -/
theorem shape_preservation_witness :
    (processImage [[(1, 2, 3), (4, 5, 6)]] []).map List.length =
      [[(1, 2, 3), (4, 5, 6)]].map List.length :=
  shape_preservation.2 [[(1, 2, 3), (4, 5, 6)]] [] (by decide)

/-- Claim C8: both transforms produce a single-channel image (a plain grid of
scalars, by the return type of the embedding) whose every pixel is the result
of the per-pixel mapping lookup — never a scaled or blended quantity — and
every produced value fits in unsigned 8 bits. -/
theorem output_uint8_lookup :
    (∀ (img : GImage) (m : GMap),
        remapLabels img m = img.map fun row => row.map fun x => lookupValG m x) ∧
    (∀ (img : RGBImage) (cm : Colormap), Rectangular img →
        processImage img cm = img.map fun row => row.map fun px => lookupValRGB cm px) ∧
    (∀ (m : GMap) (x : Nat), lookupValG m x < 256) ∧
    (∀ (cm : Colormap) (px : RGBPixel), lookupValRGB cm px < 256) := by
  refine ⟨remapLabels_closed, processImage_closed, ?_, ?_⟩
  · intro m x
    unfold lookupValG
    cases lookupKV m.reverse (x : Int) with
    | some v => show v % 256 < 256; exact Nat.mod_lt _ (by omega)
    | none => show (0 : Nat) < 256; decide
  · intro cm px
    unfold lookupValRGB
    cases lookupKV cm.reverse (keyOfPx px) with
    | some v => show (v % 256).toNat < 256; omega
    | none => show (0 : Nat) < 256; decide

/-- Witness for `output_uint8_lookup`: instantiations of all four conjuncts,
the rectangularity hypothesis discharged on a concrete 1×1 image. -/
theorem output_uint8_lookup_witness :
    remapLabels [[3]] [] = [[3]].map (fun row => row.map fun x => lookupValG [] x) ∧
    processImage [[(5, 5, 5)]] [] =
      [[(5, 5, 5)]].map (fun row => row.map fun px => lookupValRGB [] px) ∧
    lookupValG [] 0 < 256 ∧ lookupValRGB [] (0, 0, 0) < 256 :=
  ⟨output_uint8_lookup.1 [[3]] [],
   output_uint8_lookup.2.1 [[(5, 5, 5)]] [] (by decide),
   output_uint8_lookup.2.2.1 [] 0,
   output_uint8_lookup.2.2.2 [] (0, 0, 0)⟩

/-- Claim C9: under both traversal loops, every planned (input, output) pair
mirrors the input file's path relative to the input root verbatim under the
output root — there is a single relative path appended to both roots, so the
directory structure is reproduced with no flattening. -/
theorem path_mirroring :
    (∀ (inRoot subdirNames outRoot : List String) (t : DirTree)
        (pr : List String × List String),
        pr ∈ plannedG inRoot subdirNames outRoot t →
        ∃ rel, pr.1 = inRoot ++ rel ∧ pr.2 = outRoot ++ rel) ∧
    (∀ (inRoot outRoot : List String) (t : DirTree)
        (pr : List String × List String),
        pr ∈ plannedRGB inRoot outRoot t →
        ∃ rel, pr.1 = inRoot ++ rel ∧ pr.2 = outRoot ++ rel) := by
  constructor
  · intro inRoot subdirNames outRoot t pr hpr
    simp only [plannedG, List.mem_flatMap] at hpr
    obtain ⟨sd, _, hpr⟩ := hpr
    cases hsub : lookupSubdir t sd with
    | none => rw [hsub] at hpr; simp at hpr
    | some sub =>
      rw [hsub] at hpr
      simp only [List.mem_flatMap, List.mem_map] at hpr
      obtain ⟨rf, _, f, _, heq⟩ := hpr
      refine ⟨sd :: (rf.1 ++ [f]), ?_, ?_⟩
      · rw [← heq]
        simp [List.append_assoc]
      · rw [← heq]
        simp only [relpathM, List.append_assoc, List.cons_append]
        rw [List.drop_left]
        simp
  · intro inRoot outRoot t pr hpr
    simp only [plannedRGB, List.mem_flatMap, List.mem_map] at hpr
    obtain ⟨rf, _, f, _, heq⟩ := hpr
    refine ⟨rf.1 ++ [f], ?_, ?_⟩
    · rw [← heq]
      simp [List.append_assoc]
    · rw [← heq]
      simp only [relpathM, List.append_assoc]
      rw [List.drop_left]

/-- Witness for `path_mirroring`: concrete one-file trees; the named-subdirs
loop plans `in/sub/img.PNG → out/sub/img.PNG`, the recursive loop plans
`in/a/img.png → out/a/img.png`. -/
theorem path_mirroring_witness :
    (∃ rel, (["in", "sub", "img.PNG"] : List String) = ["in"] ++ rel ∧
        (["out", "sub", "img.PNG"] : List String) = ["out"] ++ rel) ∧
    (∃ rel, (["in", "a", "img.png"] : List String) = ["in"] ++ rel ∧
        (["out", "a", "img.png"] : List String) = ["out"] ++ rel) :=
  ⟨path_mirroring.1 ["in"] ["sub"] ["out"]
      (.node [] [("sub", .node ["img.PNG"] [])])
      (["in", "sub", "img.PNG"], ["out", "sub", "img.PNG"])
      (by simp [plannedG, walkFrom, lookupSubdir, lookupKV, relpathM,
                lowerEndsWithPng, toLowerChar]),
   path_mirroring.2 ["in"] ["out"] (.node [] [("a", .node ["img.png"] [])])
      (["in", "a", "img.png"], ["out", "a", "img.png"])
      (by simp [plannedRGB, walkFrom, relpathM, endsWithPng])⟩

/-- Claim C10: with pairwise-distinct keys (as both Python dicts guarantee),
the masked-assignment remap is order-independent — permuting the mapping
entries leaves both transforms' outputs unchanged — so each output is a
well-defined per-pixel function of the input pixel and repeated runs agree. -/
theorem remap_order_invariance (m m' : GMap) (cm cm' : Colormap)
    (img : GImage) (rimg : RGBImage)
    (hperm : m.Perm m') (hnd : (m.map Prod.fst).Nodup)
    (hpermc : cm.Perm cm') (hndc : (cm.map Prod.fst).Nodup)
    (hrect : Rectangular rimg) :
    remapLabels img m = remapLabels img m' ∧
      processImage rimg cm = processImage rimg cm' := by
  constructor
  · have hp : m.reverse.Perm m'.reverse :=
      ((List.reverse_perm m).trans hperm).trans (List.reverse_perm m').symm
    have hn : (m.reverse.map Prod.fst).Nodup := by
      rw [List.map_reverse, List.nodup_reverse]; exact hnd
    have heq : ∀ x : Nat, lookupValG m x = lookupValG m' x := by
      intro x
      unfold lookupValG
      rw [lookupKV_of_perm hp hn]
    rw [remapLabels_closed, remapLabels_closed]
    simp only [heq]
  · have hp : cm.reverse.Perm cm'.reverse :=
      ((List.reverse_perm cm).trans hpermc).trans (List.reverse_perm cm').symm
    have hn : (cm.reverse.map Prod.fst).Nodup := by
      rw [List.map_reverse, List.nodup_reverse]; exact hndc
    have heq : ∀ px : RGBPixel, lookupValRGB cm px = lookupValRGB cm' px := by
      intro px
      unfold lookupValRGB
      rw [lookupKV_of_perm hp hn]
    have hrect' : Rectangular rimg := hrect
    rw [processImage_closed rimg cm hrect, processImage_closed rimg cm' hrect']
    simp only [heq]

/-- Witness for `remap_order_invariance`: swapping the two entries of a
grayscale mapping and of a colormap leaves the outputs on concrete images
unchanged. -/
theorem remap_order_invariance_witness :
    remapLabels [[5, 6]] [((5 : Int), 1), ((6 : Int), 2)] =
      remapLabels [[5, 6]] [((6 : Int), 2), ((5 : Int), 1)] ∧
    processImage [[(3, 2, 1)]] [(((1 : Int), 2, 3), 7), (((9 : Int), 9, 9), 8)] =
      processImage [[(3, 2, 1)]] [(((9 : Int), 9, 9), 8), (((1 : Int), 2, 3), 7)] :=
  remap_order_invariance
    [((5 : Int), 1), ((6 : Int), 2)] [((6 : Int), 2), ((5 : Int), 1)]
    [(((1 : Int), 2, 3), 7), (((9 : Int), 9, 9), 8)]
    [(((9 : Int), 9, 9), 8), (((1 : Int), 2, 3), 7)]
    [[5, 6]] [[(3, 2, 1)]]
    (by decide) (by decide) (by decide) (by decide) (by decide)
